import Mathlib

/-!
Verification development for the Lifeasee streaming speech server
(`src/index.js`).

The source is a single WebSocket server.  Per connection it keeps an entry
in the process-wide map `clientStreams : Map<WebSocket, {recognizeStream,
ffmpegProcess}>`, opens one Google streaming-recognition stream on the
first audio chunk (`startRecognitionStream`, lines 58-103), spawns one
ffmpeg conversion task per chunk (lines 142-269), relays recognition
results back over the socket (lines 77-95), and tears everything down in
`stopRecognitionStream` (lines 106-121), which is invoked from the
WebSocket `close`/`error` handlers and from the recognition error path.

We embed the per-connection behaviour as a step function over an explicit
state.  External handles (recognition streams, ffmpeg processes) are
identified by freshly allocated numeric ids; `openRecog` and `liveFfmpeg`
are ghost fields tracking which handles are currently alive at the OS /
service level (a destroyed or naturally-ended process leaves the set while
the stored reference in the map entry may remain).  Observable effects are
recorded as an `Action` list.
-/

namespace Lifeasee

/-- The configuration of one fluent-ffmpeg invocation, as built at
`src/index.js` lines 245-259: `ffmpeg(inputStream).inputFormat("3gp")
.outputOptions([...])`. -/
structure FfmpegInvocation where
  /-- `some fmt`: the input container format is forced with `.inputFormat`;
  `none` would mean ffmpeg auto-detects the container. -/
  inputFormat : Option String
  /-- the `.outputOptions([...])` list. -/
  outputOptions : List String
deriving DecidableEq, Repr

/-- The ffmpeg invocation the active code builds for every chunk
(`src/index.js` lines 245-253). -/
def ffmpegCommand : FfmpegInvocation :=
  { inputFormat := some "3gp"
  , outputOptions :=
      ["-acodec pcm_s16le", "-ar 16000", "-ac 1", "-f s16le"] }

/-- Modelled from the spec: an invocation accepts audio "in an arbitrary
container/sample rate" iff it does not force a particular input container
format on ffmpeg (auto-detection). -/
def acceptsArbitraryContainer (inv : FfmpegInvocation) : Prop :=
  inv.inputFormat = none

/-- Outbound envelopes serialised over the WebSocket. -/
inductive OutMsg where
  /-- `{ transcript, isFinal }`, line 85. -/
  | transcriptMsg (transcript : String) (isFinal : Bool)
  /-- `{ error: message }`, line 73. -/
  | errorMsg (message : String)
deriving DecidableEq, Repr

/-- Observable effects of the handlers. -/
inductive Action where
  | log (s : String)
  /-- `speechClient.streamingRecognize(requestConfig)`, line 64. -/
  | openRecognition (id : Nat)
  /-- `recognizeStream.destroy()`, line 111. -/
  | destroyRecognition (id : Nat)
  /-- spawning the ffmpeg task for one chunk: carries the chunk payload
  fed to its stdin and the invocation configuration, lines 245-253. -/
  | spawnFfmpeg (id : Nat) (input : String) (inv : FfmpegInvocation)
  /-- `ffmpegProcess.kill("SIGKILL")`, lines 115 and 177. -/
  | killFfmpeg (id : Nat)
  /-- `ffmpegCommand.pipe(recognizeStream, { end: endStream })`, line 263. -/
  | pipe (src : Nat) (dst : Nat) (endStream : Bool)
  /-- `ws.send(...)`. -/
  | send (m : OutMsg)
deriving DecidableEq, Repr

/-- The per-client entry of `clientStreams` (line 30):
`{ recognizeStream, ffmpegProcess }`, each nullable. -/
structure ClientData where
  recognizeStream : Option Nat
  ffmpegProcess : Option Nat
deriving DecidableEq, Repr

/-- Per-connection state.  `clientEntry` is `clientStreams.get(ws)` for
this connection (`none` = no entry).  `wsOpen` models
`ws.readyState === WebSocket.OPEN`.  `nextId` supplies fresh handle ids.
`liveFfmpeg` / `openRecog` are ghost sets of handle ids currently alive. -/
structure ConnState where
  wsOpen : Bool
  clientEntry : Option ClientData
  nextId : Nat
  liveFfmpeg : List Nat
  openRecog : List Nat
deriving DecidableEq, Repr

/-- State of a connection right after `wss.on("connection")` fires
(line 52): socket open, no `clientStreams` entry, no handles. -/
def initState : ConnState :=
  { wsOpen := true, clientEntry := none, nextId := 0
  , liveFfmpeg := [], openRecog := [] }

/-- The recognition-stream id stored in the registry entry, if any. -/
def storedRecog (s : ConnState) : Option Nat :=
  s.clientEntry.bind ClientData.recognizeStream

/-- The ffmpeg-process id stored in the registry entry, if any. -/
def storedFfmpeg (s : ConnState) : Option Nat :=
  s.clientEntry.bind ClientData.ffmpegProcess

/-- The session is in the spec state `Streaming` exactly when the
registry holds an entry for the connection (the code has no separate
state variable; entry presence is the state). -/
def isStreaming (s : ConnState) : Bool :=
  s.clientEntry.isSome

/-- JavaScript truthiness of `parsedMessage.data` when modelled as an
optional string: absent and the empty string are falsy (line 142). -/
def jsTruthy : Option String → Bool
  | none => false
  | some d => d ≠ ""

/-- A successfully parsed inbound envelope: `{ type, data }`. -/
structure ParsedMessage where
  type : String
  data : Option String
deriving DecidableEq, Repr

/-- An inbound WebSocket message: either `JSON.parse` throws (`invalid`)
or it yields a parsed envelope (lines 130-140). -/
inductive InMsg where
  | invalid
  | parsed (m : ParsedMessage)
deriving DecidableEq, Repr

/-- `startRecognitionStream` (lines 58-103): opens a fresh Google
recognition stream and stores `{ recognizeStream, ffmpegProcess: null }`
in `clientStreams` (line 102). -/
def startRecognitionStream (s : ConnState) : ConnState × List Action :=
  let rid := s.nextId
  ({ s with
      clientEntry := some { recognizeStream := some rid, ffmpegProcess := none }
      nextId := s.nextId + 1
      openRecog := rid :: s.openRecog },
   [Action.log "Starting Google Speech recognize stream.",
    Action.openRecognition rid])

/-- `stopRecognitionStream` (lines 106-121): if an entry exists, destroy
the recognition stream (if set), SIGKILL the ffmpeg process (if set) and
delete the entry; otherwise only log. -/
def stopRecognitionStream (s : ConnState) : ConnState × List Action :=
  match s.clientEntry with
  | some cd =>
      let aR := match cd.recognizeStream with
        | some r => [Action.log "Destroying Google recognize stream.",
                     Action.destroyRecognition r]
        | none => []
      let aF := match cd.ffmpegProcess with
        | some p => [Action.log "Killing ffmpeg process.",
                     Action.killFfmpeg p]
        | none => []
      ({ s with
          clientEntry := none
          openRecog := match cd.recognizeStream with
            | some r => s.openRecog.erase r
            | none => s.openRecog
          liveFfmpeg := match cd.ffmpegProcess with
            | some p => s.liveFfmpeg.erase p
            | none => s.liveFfmpeg },
       aR ++ aF)
  | none => (s, [Action.log "No active stream found to stop."])

/-- Line 144: `!clientStreams.has(ws) || !clientStreams.get(ws).recognizeStream`. -/
def needStart (s : ConnState) : Bool :=
  match s.clientEntry with
  | none => true
  | some cd => cd.recognizeStream.isNone

/-- The log emitted by the unknown-type branch (lines 279-284). -/
def unknownTypeLog (t : String) : Action :=
  Action.log ("Received unknown message type: " ++ t)

/-- The `audio_chunk` branch of the message handler (lines 142-269):
ensure a recognition stream exists, kill any previous ffmpeg process,
spawn a new ffmpeg conversion for the chunk payload `d` and pipe its
output into the existing recognition stream with `{ end: false }`. -/
def processAudioChunk (s : ConnState) (d : String) : ConnState × List Action :=
  let r0 := if needStart s then
      let r := startRecognitionStream s
      (r.1, Action.log "No stream found, starting new one." :: r.2)
    else (s, [])
  let s1 := r0.1
  let a1 := r0.2
  match s1.clientEntry with
  | none =>
      (s1, a1 ++ [Action.log "Failed to get or create recognizeStream. Cannot process audio."])
  | some cd =>
      match cd.recognizeStream with
      | none =>
          (s1, a1 ++ [Action.log "Failed to get or create recognizeStream. Cannot process audio."])
      | some rid =>
          let r2 := match cd.ffmpegProcess with
            | some p =>
                ({ s1 with liveFfmpeg := s1.liveFfmpeg.erase p },
                 [Action.log "Killing previous ffmpeg process for new chunk.",
                  Action.killFfmpeg p])
            | none => (s1, ([] : List Action))
          let s2 := r2.1
          let fid := s2.nextId
          ({ s2 with
              clientEntry := some { recognizeStream := some rid, ffmpegProcess := some fid }
              nextId := s2.nextId + 1
              liveFfmpeg := fid :: s2.liveFfmpeg },
           a1 ++ [Action.log "Received audio chunk. Converting..."] ++ r2.2 ++
             [Action.spawnFfmpeg fid d ffmpegCommand,
              Action.pipe fid rid false])

/-- `ws.on("message")` (lines 124-285). -/
def handleMessage (s : ConnState) (m : InMsg) : ConnState × List Action :=
  match m with
  | InMsg.invalid =>
      (s, [Action.log "Received non-JSON message or invalid JSON. Ignoring."])
  | InMsg.parsed pm =>
      if pm.type == "audio_chunk" && jsTruthy pm.data then
        processAudioChunk s (pm.data.getD "")
      else if pm.type == "end_audio" then
        (s, [Action.log "Received end_audio signal. Client stopped sending."])
      else
        (s, [unknownTypeLog pm.type])

/-- `recognizeStream.on("data")` (lines 77-95): if the top result has a
top alternative, send `{ transcript, isFinal }` when the socket is open,
otherwise warn and stop; empty results are ignored. -/
def handleRecogData (s : ConnState) (hasAlt : Bool) (transcript : String)
    (isFinal : Bool) : ConnState × List Action :=
  if hasAlt then
    if s.wsOpen then
      (s, [Action.send (OutMsg.transcriptMsg transcript isFinal)])
    else
      let r := stopRecognitionStream s
      (r.1, Action.log "WebSocket closed, cannot send transcription." :: r.2)
  else
    (s, [])

/-- `recognizeStream.on("error")` (lines 66-76): log, tear down, then send
an error envelope if the socket is still open. -/
def handleRecogError (s : ConnState) (msg : String) : ConnState × List Action :=
  let r := stopRecognitionStream s
  (r.1,
   (Action.log ("Google Speech API Error: " ++ msg) :: r.2) ++
     (if r.1.wsOpen then
        [Action.send (OutMsg.errorMsg ("Google Speech API Error: " ++ msg))]
      else []))

/-- `recognizeStream.on("end")` (lines 96-99): log only. -/
def handleRecogEnd (s : ConnState) : ConnState × List Action :=
  (s, [Action.log "Google Speech recognize stream ended."])

/-- The active ffmpeg `error` handler (lines 255-258): logs the error and
stderr; it does not touch the registry entry.  The errored process itself
is gone, so its id leaves the live set. -/
def handleFfmpegError (s : ConnState) (id : Nat) (msg : String) :
    ConnState × List Action :=
  ({ s with liveFfmpeg := s.liveFfmpeg.erase id },
   [Action.log ("FFmpeg error: " ++ msg),
    Action.log "FFmpeg stderr."])

/-- The active ffmpeg `end` handler (line 259): logs only; the finished
process leaves the live set. -/
def handleFfmpegEnd (s : ConnState) (id : Nat) : ConnState × List Action :=
  ({ s with liveFfmpeg := s.liveFfmpeg.erase id },
   [Action.log "FFmpeg conversion finished."])

/-- `ws.on("close")` (lines 288-297): the socket is no longer open when
the handler runs; log and call `stopRecognitionStream`. -/
def handleWsClose (s : ConnState) : ConnState × List Action :=
  let r := stopRecognitionStream { s with wsOpen := false }
  (r.1, Action.log "WebSocket connection closed." :: r.2)

/-- `ws.on("error")` (lines 300-303): log and call `stopRecognitionStream`. -/
def handleWsError (s : ConnState) : ConnState × List Action :=
  let r := stopRecognitionStream s
  (r.1, Action.log "WebSocket error." :: r.2)

/-- Events delivered to one connection by the Node event loop. -/
inductive Event where
  | message (m : InMsg)
  | wsClose
  | wsError
  | recogData (hasAlt : Bool) (transcript : String) (isFinal : Bool)
  | recogError (msg : String)
  | recogEnd
  | ffmpegError (id : Nat) (msg : String)
  | ffmpegEnd (id : Nat)
deriving DecidableEq, Repr

/-- Dispatch one event to the corresponding handler. -/
def step (s : ConnState) (e : Event) : ConnState × List Action :=
  match e with
  | Event.message m => handleMessage s m
  | Event.wsClose => handleWsClose s
  | Event.wsError => handleWsError s
  | Event.recogData h t f => handleRecogData s h t f
  | Event.recogError m => handleRecogError s m
  | Event.recogEnd => handleRecogEnd s
  | Event.ffmpegError id m => handleFfmpegError s id m
  | Event.ffmpegEnd id => handleFfmpegEnd s id

/-- Run a sequence of events, accumulating the emitted actions. -/
def run (s : ConnState) : List Event → ConnState × List Action
  | [] => (s, [])
  | e :: es =>
      let r := step s e
      let rr := run r.1 es
      (rr.1, r.2 ++ rr.2)

/-- An event is deliverable in a state: messages and socket close/error
only while the socket is open; recognition callbacks only while a
recognition stream is alive; ffmpeg callbacks only for a live process. -/
def wfEvent (s : ConnState) : Event → Bool
  | Event.message _ => s.wsOpen
  | Event.wsClose => s.wsOpen
  | Event.wsError => s.wsOpen
  | Event.recogData _ _ _ => !s.openRecog.isEmpty
  | Event.recogError _ => !s.openRecog.isEmpty
  | Event.recogEnd => !s.openRecog.isEmpty
  | Event.ffmpegError id _ => s.liveFfmpeg.contains id
  | Event.ffmpegEnd id => s.liveFfmpeg.contains id

/-- A trace of deliverable events from a state. -/
def wfTrace (s : ConnState) : List Event → Bool
  | [] => true
  | e :: es => wfEvent s e && wfTrace (step s e).1 es

/-- An action list consisting of log lines only: nothing is sent, no
handle is opened, killed or destroyed. -/
def onlyLogs (l : List Action) : Bool :=
  l.all fun a => match a with | Action.log _ => true | _ => false

/-- Number of `openRecognition` actions in a list. -/
def countOpens (l : List Action) : Nat :=
  l.countP fun a => match a with | Action.openRecognition _ => true | _ => false

/-- Number of `destroyRecognition` actions in a list. -/
def countDestroys (l : List Action) : Nat :=
  l.countP fun a => match a with | Action.destroyRecognition _ => true | _ => false

/-- Number of `killFfmpeg` actions in a list. -/
def countKills (l : List Action) : Nat :=
  l.countP fun a => match a with | Action.killFfmpeg _ => true | _ => false

/-- The transcript envelopes sent, in order. -/
def sentTranscripts (l : List Action) : List (String × Bool) :=
  l.filterMap fun a => match a with
    | Action.send (OutMsg.transcriptMsg t f) => some (t, f)
    | _ => none

/-- The ffmpeg invocations spawned, in order. -/
def spawnedInvocations (l : List Action) : List FfmpegInvocation :=
  l.filterMap fun a => match a with
    | Action.spawnFfmpeg _ _ inv => some inv
    | _ => none

/-- A parsed `audio_chunk` message with payload `d`. -/
def chunkMsg (d : String) : Event :=
  Event.message (InMsg.parsed { type := "audio_chunk", data := some d })

/-- Recognition `data` events built from triples
`(top alternative present, transcript, isFinal)`. -/
def recogEvents (l : List (Bool × String × Bool)) : List Event :=
  l.map fun x => Event.recogData x.1 x.2.1 x.2.2

/-- Every `pipe` action in the list keeps the destination stream open
(`end: false`). -/
def pipesKeepOpen (l : List Action) : Bool :=
  l.all fun a => match a with | Action.pipe _ _ b => !b | _ => true

/-- Trace for claim C1: one chunk, then the ffmpeg task for it fails. -/
def cexTraceC1 : List Event :=
  [chunkMsg "QUJD", Event.ffmpegError 1 "boom"]

/-- Trace for claim C2: one chunk, then the recognition stream reports a
failure (full teardown), then another chunk arrives on the still-open
socket. -/
def cexTraceC2 : List Event :=
  [chunkMsg "QUJD", Event.recogError "service failure", chunkMsg "REVG"]

/-- A concrete mid-session state: recognition stream `0` open, ffmpeg
process `1` stored and alive (the state reached from `initState` by one
chunk). -/
def streamingState : ConnState :=
  { wsOpen := true
  , clientEntry := some { recognizeStream := some 0, ffmpegProcess := some 1 }
  , nextId := 2, liveFfmpeg := [1], openRecog := [0] }

/-- Behaviour of the message handler once the registry entry is gone
(after teardown): every message that is not a well-formed audio chunk is
a pure no-op apart from logging, while an `audio_chunk` with a truthy
payload re-creates the session, opening one fresh recognition stream. -/
def afterTeardownBehaviour (s : ConnState) : Prop :=
  ((handleMessage s InMsg.invalid).1 = s ∧
    onlyLogs (handleMessage s InMsg.invalid).2 = true) ∧
  (∀ pm : ParsedMessage, ¬(pm.type = "audio_chunk" ∧ jsTruthy pm.data = true) →
    (handleMessage s (InMsg.parsed pm)).1 = s ∧
    onlyLogs (handleMessage s (InMsg.parsed pm)).2 = true) ∧
  (∀ pm : ParsedMessage, pm.type = "audio_chunk" → jsTruthy pm.data = true →
    countOpens (handleMessage s (InMsg.parsed pm)).2 = 1 ∧
    isStreaming (handleMessage s (InMsg.parsed pm)).1 = true)

/-- Registry/handle consistency at a state: an entry implies the socket
is open; a closed socket means no entry and no alive handles; and the
`close` handler leaves no entry and no alive handles. -/
def registryConsistencyAt (s : ConnState) : Prop :=
  (s.clientEntry.isSome = true → s.wsOpen = true) ∧
  (s.wsOpen = false →
    s.clientEntry = none ∧ s.liveFfmpeg = [] ∧ s.openRecog = []) ∧
  ((step s Event.wsClose).1.clientEntry = none ∧
   (step s Event.wsClose).1.liveFfmpeg = [] ∧
   (step s Event.wsClose).1.openRecog = [])

/-- Every ffmpeg task spawned while handling an `audio_chunk` envelope
with payload `d` reads exactly the chunk payload and uses the fixed
invocation: input container forced to 3gp, output raw mono 16 kHz signed
16-bit little-endian PCM. -/
def spawnFixedFormat (s : ConnState) (d : String) : Prop :=
  ∀ fid inp inv, Action.spawnFfmpeg fid inp inv ∈
      (handleMessage s (InMsg.parsed { type := "audio_chunk", data := some d })).2 →
    inp = d ∧ inv.inputFormat = some "3gp" ∧
    inv.outputOptions = ["-acodec pcm_s16le", "-ar 16000", "-ac 1", "-f s16le"]

/-- Single-transcoder discipline at a state: at most one ffmpeg process
is alive, and whenever a chunk arrives while a prior process is stored,
the handler's action list kills the prior process strictly before
spawning the new one. -/
def singleTranscoderAt (s : ConnState) : Prop :=
  s.liveFfmpeg.length ≤ 1 ∧
  (∀ d : String, d ≠ "" → ∀ p, storedFfmpeg s = some p →
    ∃ l1 l2 l3, (step s (chunkMsg d)).2 =
      l1 ++ Action.killFfmpeg p ::
        (l2 ++ Action.spawnFfmpeg s.nextId d ffmpegCommand :: l3))

/-- Recognition-handle lifecycle at a state: a recognition stream is
alive iff the session is `Streaming`; while it is open no inbound message
reopens or replaces it; no inbound message ever destroys it and every
pipe into it keeps it open; and from a non-`Streaming` state an audio
chunk opens exactly one stream. -/
def recogLifecycleAt (s : ConnState) : Prop :=
  (s.openRecog ≠ [] ↔ isStreaming s = true) ∧
  (∀ m : InMsg, isStreaming s = true →
    countOpens (handleMessage s m).2 = 0 ∧
    storedRecog (handleMessage s m).1 = storedRecog s) ∧
  (∀ m : InMsg, countDestroys (handleMessage s m).2 = 0 ∧
    pipesKeepOpen (handleMessage s m).2 = true) ∧
  (isStreaming s = false → ∀ d : String, d ≠ "" →
    countOpens (handleMessage s (InMsg.parsed { type := "audio_chunk", data := some d })).2 = 1)

/-- Idempotent-teardown specification for a state whose entry is `cd`:
the second stop changes nothing and emits no release, the two calls
together destroy the recognition stream exactly once and kill the ffmpeg
process exactly once when one was stored, and the registry entry is
removed by the first call. -/
def stopTwiceSpec (s : ConnState) (cd : ClientData) : Prop :=
  (stopRecognitionStream (stopRecognitionStream s).1).1 = (stopRecognitionStream s).1 ∧
  countDestroys ((stopRecognitionStream s).2 ++
    (stopRecognitionStream (stopRecognitionStream s).1).2) = 1 ∧
  countKills ((stopRecognitionStream s).2 ++
    (stopRecognitionStream (stopRecognitionStream s).1).2) =
      (if cd.ffmpegProcess.isSome then 1 else 0) ∧
  (stopRecognitionStream s).1.clientEntry = none ∧
  onlyLogs (stopRecognitionStream (stopRecognitionStream s).1).2 = true

/-- Order-preserving relay: the transcript envelopes sent while a list of
recognition `data` events is processed are exactly the events carrying a
top alternative, in emission order; the state is untouched and the whole
event list is deliverable. -/
def orderPreservingRelay (s : ConnState) (l : List (Bool × String × Bool)) : Prop :=
  sentTranscripts (run s (recogEvents l)).2 =
    l.filterMap (fun x => if x.1 then some (x.2.1, x.2.2) else none) ∧
  (run s (recogEvents l)).1 = s ∧
  wfTrace s (recogEvents l) = true

/-! ## State invariant -/

/-- The invariant maintained by every deliverable event: registry entries
always carry a recognition stream; an entry implies the socket is open;
the alive recognition streams are exactly the stored one; at most the
stored ffmpeg process is alive. -/
structure Inv (s : ConnState) : Prop where
  entryRecog : ∀ cd, s.clientEntry = some cd → cd.recognizeStream.isSome = true
  entryOpen : s.clientEntry.isSome = true → s.wsOpen = true
  recogOk : match storedRecog s with
    | none => s.openRecog = []
    | some r => s.openRecog = [r]
  liveOk : match storedFfmpeg s with
    | none => s.liveFfmpeg = []
    | some p => s.liveFfmpeg = [] ∨ s.liveFfmpeg = [p]

theorem inv_initState : Inv initState := by
  constructor <;> simp [initState, storedRecog, storedFfmpeg]

theorem inv_of_cleared {s : ConnState} (hE : s.clientEntry = none)
    (hO : s.openRecog = []) (hL : s.liveFfmpeg = []) : Inv s := by
  constructor
  · intro cd hcd; rw [hE] at hcd; cases hcd
  · intro h; rw [hE] at h; cases h
  · simp [storedRecog, hE, hO]
  · simp [storedFfmpeg, hE, hL]

/-- `stopRecognitionStream` always leaves the registry entry removed and,
from an invariant state, no alive recognition stream or ffmpeg process;
it never touches the socket. -/
theorem stop_spec (s : ConnState)
    (hR : (match storedRecog s with
      | none => s.openRecog = []
      | some r => s.openRecog = [r]))
    (hL : (match storedFfmpeg s with
      | none => s.liveFfmpeg = []
      | some p => s.liveFfmpeg = [] ∨ s.liveFfmpeg = [p])) :
    (stopRecognitionStream s).1.clientEntry = none ∧
    (stopRecognitionStream s).1.openRecog = [] ∧
    (stopRecognitionStream s).1.liveFfmpeg = [] ∧
    (stopRecognitionStream s).1.wsOpen = s.wsOpen ∧
    (stopRecognitionStream s).1.nextId = s.nextId := by
  cases hE : s.clientEntry with
  | none =>
      rw [show storedRecog s = none by simp [storedRecog, hE]] at hR
      rw [show storedFfmpeg s = none by simp [storedFfmpeg, hE]] at hL
      simp [stopRecognitionStream, hE, hR, hL]
  | some cd =>
      have hRs : storedRecog s = cd.recognizeStream := by simp [storedRecog, hE]
      have hFs : storedFfmpeg s = cd.ffmpegProcess := by simp [storedFfmpeg, hE]
      rw [hRs] at hR; rw [hFs] at hL
      cases hr : cd.recognizeStream with
      | none =>
          rw [hr] at hR
          cases hf : cd.ffmpegProcess with
          | none =>
              rw [hf] at hL
              simp [stopRecognitionStream, hE, hr, hf, hR, hL]
          | some p =>
              rw [hf] at hL
              rcases hL with hL | hL <;>
                simp [stopRecognitionStream, hE, hr, hf, hR, hL]
      | some r =>
          rw [hr] at hR
          cases hf : cd.ffmpegProcess with
          | none =>
              rw [hf] at hL
              simp [stopRecognitionStream, hE, hr, hf, hR, hL]
          | some p =>
              rw [hf] at hL
              rcases hL with hL | hL <;>
                simp [stopRecognitionStream, hE, hr, hf, hR, hL]

/-- The result of `stopRecognitionStream` satisfies the invariant. -/
theorem inv_stop {s : ConnState} (h : Inv s) : Inv (stopRecognitionStream s).1 := by
  obtain ⟨hc, ho, hl, _, _⟩ := stop_spec s h.recogOk h.liveOk
  exact inv_of_cleared hc ho hl

/-! ## Characterisation of the `audio_chunk` branch -/

/-- First chunk for a connection with no registry entry: a recognition
stream is opened, then an ffmpeg task is spawned and piped into it with
`end: false`. -/
theorem processAudioChunk_fresh (s : ConnState) (d : String)
    (hE : s.clientEntry = none) :
    processAudioChunk s d =
      ({ wsOpen := s.wsOpen
       , clientEntry := some { recognizeStream := some s.nextId
                             , ffmpegProcess := some (s.nextId + 1) }
       , nextId := s.nextId + 2
       , liveFfmpeg := (s.nextId + 1) :: s.liveFfmpeg
       , openRecog := s.nextId :: s.openRecog },
       [Action.log "No stream found, starting new one.",
        Action.log "Starting Google Speech recognize stream.",
        Action.openRecognition s.nextId,
        Action.log "Received audio chunk. Converting...",
        Action.spawnFfmpeg (s.nextId + 1) d ffmpegCommand,
        Action.pipe (s.nextId + 1) s.nextId false]) := by
  simp [processAudioChunk, needStart, hE, startRecognitionStream]

/-- A chunk while a recognition stream is open and no prior ffmpeg
process is stored: spawn and pipe only. -/
theorem processAudioChunk_noPrior (s : ConnState) (d : String)
    (cd : ClientData) (rid : Nat)
    (hE : s.clientEntry = some cd) (hR : cd.recognizeStream = some rid)
    (hF : cd.ffmpegProcess = none) :
    processAudioChunk s d =
      ({ wsOpen := s.wsOpen
       , clientEntry := some { recognizeStream := some rid
                             , ffmpegProcess := some s.nextId }
       , nextId := s.nextId + 1
       , liveFfmpeg := s.nextId :: s.liveFfmpeg
       , openRecog := s.openRecog },
       [Action.log "Received audio chunk. Converting...",
        Action.spawnFfmpeg s.nextId d ffmpegCommand,
        Action.pipe s.nextId rid false]) := by
  simp [processAudioChunk, needStart, hE, hR, hF]

/-- A chunk while a recognition stream is open and a prior ffmpeg process
is stored: the prior process is SIGKILLed, strictly before the new task
is spawned, and the new task is piped into the *same* recognition
stream. -/
theorem processAudioChunk_prior (s : ConnState) (d : String)
    (cd : ClientData) (rid p : Nat)
    (hE : s.clientEntry = some cd) (hR : cd.recognizeStream = some rid)
    (hF : cd.ffmpegProcess = some p) :
    processAudioChunk s d =
      ({ wsOpen := s.wsOpen
       , clientEntry := some { recognizeStream := some rid
                             , ffmpegProcess := some s.nextId }
       , nextId := s.nextId + 1
       , liveFfmpeg := s.nextId :: s.liveFfmpeg.erase p
       , openRecog := s.openRecog },
       [Action.log "Received audio chunk. Converting...",
        Action.log "Killing previous ffmpeg process for new chunk.",
        Action.killFfmpeg p,
        Action.spawnFfmpeg s.nextId d ffmpegCommand,
        Action.pipe s.nextId rid false]) := by
  simp [processAudioChunk, needStart, hE, hR, hF]

/-- The `audio_chunk` branch preserves the invariant (the socket must be
open, which holds for deliverable message events). -/
theorem inv_processAudioChunk {s : ConnState} (d : String) (h : Inv s)
    (hw : s.wsOpen = true) : Inv (processAudioChunk s d).1 := by
  cases hE : s.clientEntry with
  | none =>
      rw [processAudioChunk_fresh s d hE]
      have hO : s.openRecog = [] := by
        have := h.recogOk; rw [show storedRecog s = none by simp [storedRecog, hE]] at this
        exact this
      have hL : s.liveFfmpeg = [] := by
        have := h.liveOk; rw [show storedFfmpeg s = none by simp [storedFfmpeg, hE]] at this
        exact this
      constructor
      · intro cd hcd; cases hcd; rfl
      · intro _; exact hw
      · simp [storedRecog, hO]
      · simp [storedFfmpeg, hL]
  | some cd =>
      have hR : ∃ rid, cd.recognizeStream = some rid := by
        have := h.entryRecog cd hE
        cases hr : cd.recognizeStream with
        | none => rw [hr] at this; cases this
        | some rid => exact ⟨rid, rfl⟩
      obtain ⟨rid, hR⟩ := hR
      have hOpen : s.openRecog = [rid] := by
        have := h.recogOk
        rw [show storedRecog s = some rid by simp [storedRecog, hE, hR]] at this
        exact this
      cases hF : cd.ffmpegProcess with
      | none =>
          have hL : s.liveFfmpeg = [] := by
            have := h.liveOk
            rw [show storedFfmpeg s = none by simp [storedFfmpeg, hE, hF]] at this
            exact this
          rw [processAudioChunk_noPrior s d cd rid hE hR hF]
          constructor
          · intro cd' hcd; cases hcd; rfl
          · intro _; exact hw
          · simp [storedRecog, hOpen]
          · simp [storedFfmpeg, hL]
      | some p =>
          have hL : s.liveFfmpeg.erase p = [] := by
            have := h.liveOk
            rw [show storedFfmpeg s = some p by simp [storedFfmpeg, hE, hF]] at this
            rcases this with hL | hL <;> simp [hL]
          rw [processAudioChunk_prior s d cd rid p hE hR hF]
          constructor
          · intro cd' hcd; cases hcd; rfl
          · intro _; exact hw
          · simp [storedRecog, hOpen]
          · simp [storedFfmpeg, hL]

/-! ## Invariant preservation -/

theorem inv_eraseLive {s : ConnState} (h : Inv s) (id : Nat) :
    Inv { s with liveFfmpeg := s.liveFfmpeg.erase id } := by
  obtain ⟨h1, h2, h3, h4⟩ := h
  constructor
  · exact h1
  · exact h2
  · exact h3
  · show (match storedFfmpeg s with
      | none => s.liveFfmpeg.erase id = []
      | some p => s.liveFfmpeg.erase id = [] ∨ s.liveFfmpeg.erase id = [p])
    cases hf : storedFfmpeg s with
    | none => rw [hf] at h4; simp [h4]
    | some p =>
        rw [hf] at h4
        rcases h4 with h4 | h4
        · left; simp [h4]
        · by_cases hpi : p = id
          · left; simp [h4, hpi]
          · right; rw [h4]
            rw [List.erase_cons]
            simp [hpi]

theorem inv_step {s : ConnState} {e : Event} (h : Inv s)
    (hw : wfEvent s e = true) : Inv (step s e).1 := by
  cases e with
  | message m =>
      cases m with
      | invalid => exact h
      | parsed pm =>
          have hws : s.wsOpen = true := hw
          show Inv (handleMessage s (InMsg.parsed pm)).1
          simp only [handleMessage]
          split
          · exact inv_processAudioChunk _ h hws
          · split
            · exact h
            · exact h
  | wsClose =>
      show Inv (stopRecognitionStream { s with wsOpen := false }).1
      obtain ⟨hc, ho, hl, _, _⟩ :=
        stop_spec { s with wsOpen := false } h.recogOk h.liveOk
      exact inv_of_cleared hc ho hl
  | wsError =>
      show Inv (stopRecognitionStream s).1
      exact inv_stop h
  | recogData hA t f =>
      show Inv (handleRecogData s hA t f).1
      simp only [handleRecogData]
      split
      · split
        · exact h
        · exact inv_stop h
      · exact h
  | recogError m =>
      show Inv (stopRecognitionStream s).1
      exact inv_stop h
  | recogEnd => exact h
  | ffmpegError id m => exact inv_eraseLive h id
  | ffmpegEnd id => exact inv_eraseLive h id

theorem inv_run {s : ConnState} (t : List Event) (h : Inv s)
    (hw : wfTrace s t = true) : Inv (run s t).1 := by
  induction t generalizing s with
  | nil => exact h
  | cons e es ih =>
      simp only [wfTrace, Bool.and_eq_true] at hw
      show Inv (run (step s e).1 es).1
      exact ih (inv_step h hw.1) hw.2

/-! ## Claim C1: transcoder failure while Streaming -/

/-- C1, counterexample: after one chunk the session is `Streaming` with
ffmpeg process `1` stored; when that process reports an error, the stored
transcoder handle is *not* cleared — `clientData.ffmpegProcess` still
holds the dead process, contradicting the claim that the handle is set
back to empty. -/
theorem C1_handle_not_cleared_cex :
    wfTrace initState cexTraceC1 = true ∧
    isStreaming (run initState cexTraceC1).1 = true ∧
    storedFfmpeg (run initState cexTraceC1).1 = some 1 ∧
    ¬ storedFfmpeg (run initState cexTraceC1).1 = none := by
  decide

/-- C1, amended: when an ffmpeg task fails, the failure is logged and
nothing else happens — the registry entry (including the stale transcoder
handle, which is *not* cleared) is untouched, the recognition stream
stays open, the socket state is unchanged, so a `Streaming` session
remains `Streaming` awaiting the next chunk. -/
theorem C1_transcoder_failure_recoverable (s : ConnState) (id : Nat) (msg : String) :
    (step s (Event.ffmpegError id msg)).1.clientEntry = s.clientEntry ∧
    storedFfmpeg (step s (Event.ffmpegError id msg)).1 = storedFfmpeg s ∧
    (step s (Event.ffmpegError id msg)).1.openRecog = s.openRecog ∧
    (step s (Event.ffmpegError id msg)).1.wsOpen = s.wsOpen ∧
    isStreaming (step s (Event.ffmpegError id msg)).1 = isStreaming s ∧
    onlyLogs (step s (Event.ffmpegError id msg)).2 = true :=
  ⟨rfl, rfl, rfl, rfl, rfl, rfl⟩

/-! ## Claim C9: malformed input is logged and discarded -/

/-- C9: an inbound message that is invalid JSON, or whose `type` is
neither `audio_chunk` nor `end_audio`, leaves the session state exactly
as it was and produces only log output: nothing is sent to the client and
no handle is opened, killed or destroyed; the handler is a total function,
so the process does not crash. -/
theorem C9_malformed_input_ignored (s : ConnState) (m : InMsg)
    (h : m = InMsg.invalid ∨ ∃ pm, m = InMsg.parsed pm ∧
      pm.type ≠ "audio_chunk" ∧ pm.type ≠ "end_audio") :
    (handleMessage s m).1 = s ∧ onlyLogs (handleMessage s m).2 = true := by
  rcases h with rfl | ⟨pm, rfl, h1, h2⟩
  · exact ⟨rfl, rfl⟩
  · have hc : (pm.type == "audio_chunk" && jsTruthy pm.data) = false := by
      simp [h1]
    have he : (pm.type == "end_audio") = false := by simp [h2]
    simp [handleMessage, hc, he, onlyLogs, unknownTypeLog]

/-- C9 witness: the spec scenario, a client sending
`JSON.stringify({ type: "nonsense" })`. -/
theorem C9_malformed_input_ignored_witness :
    ((InMsg.parsed { type := "nonsense", data := none } : InMsg) = InMsg.invalid ∨
      ∃ pm, (InMsg.parsed { type := "nonsense", data := none } : InMsg) = InMsg.parsed pm ∧
        pm.type ≠ "audio_chunk" ∧ pm.type ≠ "end_audio") ∧
    (handleMessage initState (InMsg.parsed { type := "nonsense", data := none })).1 = initState ∧
    onlyLogs (handleMessage initState (InMsg.parsed { type := "nonsense", data := none })).2 = true :=
  ⟨Or.inr ⟨_, rfl, by decide, by decide⟩,
   C9_malformed_input_ignored initState _
     (Or.inr ⟨_, rfl, by decide, by decide⟩)⟩

/-! ## Claim C10: `audio_chunk` with absent or falsy payload -/

/-- C10: an `audio_chunk` envelope whose `data` is absent or falsy (the
empty string) fails the `parsedMessage.type === "audio_chunk" &&
parsedMessage.data` guard and falls through to the unknown-type branch:
the handler returns the state unchanged and emits exactly the
unknown-type log line — no transcoder spawned, no recognition stream
opened, no decode-failure path taken. -/
theorem C10_falsy_chunk_unknown_branch (s : ConnState) (d : Option String)
    (h : jsTruthy d = false) :
    handleMessage s (InMsg.parsed { type := "audio_chunk", data := d }) =
      (s, [unknownTypeLog "audio_chunk"]) := by
  simp [handleMessage, h]

/-- C10 witness: an `audio_chunk` envelope with no `data` field. -/
theorem C10_falsy_chunk_unknown_branch_witness :
    jsTruthy none = false ∧
    handleMessage initState (InMsg.parsed { type := "audio_chunk", data := none }) =
      (initState, [unknownTypeLog "audio_chunk"]) :=
  ⟨rfl, C10_falsy_chunk_unknown_branch initState none rfl⟩

/-! ## Claim C2: is `Closed` terminal? -/

/-- C2, counterexample: tear a session down via a recognition failure
while the socket stays open, then deliver another `audio_chunk`.  The
deliverable trace ends with the connection back in the registry and a
*second* recognition stream opened — the post-teardown event is not a
no-op, so `Closed` is not terminal in the code. -/
theorem C2_closed_not_terminal_cex :
    wfTrace initState cexTraceC2 = true ∧
    countOpens (run initState cexTraceC2).2 = 2 ∧
    isStreaming (run initState cexTraceC2).1 = true := by
  decide

/-- C2, amended: after teardown the registry entry is gone; from such a
state every inbound message other than a well-formed `audio_chunk`
(invalid JSON, `end_audio`, unknown types, falsy chunks) is a no-op apart
from logging, but an `audio_chunk` with a truthy payload re-creates the
session: it opens exactly one fresh recognition stream and puts the
connection back in the registry. -/
theorem C2_after_teardown (s : ConnState) (h : s.clientEntry = none) :
    afterTeardownBehaviour s := by
  refine ⟨⟨rfl, rfl⟩, ?_, ?_⟩
  · intro pm hpm
    have hc : (pm.type == "audio_chunk" && jsTruthy pm.data) = false := by
      by_cases h1 : pm.type = "audio_chunk"
      · by_cases h2 : jsTruthy pm.data = true
        · exact absurd ⟨h1, h2⟩ hpm
        · simp [Bool.eq_false_iff.mpr h2]
      · simp [h1]
    by_cases he : (pm.type == "end_audio") = true
    · simp [handleMessage, hc, he, onlyLogs]
    · simp [handleMessage, hc, Bool.eq_false_iff.mpr he, onlyLogs, unknownTypeLog]
  · intro pm h1 h2
    have hc : (pm.type == "audio_chunk" && jsTruthy pm.data) = true := by
      simp [h1, h2]
    have hred : handleMessage s (InMsg.parsed pm) =
        processAudioChunk s (pm.data.getD "") := by
      simp [handleMessage, hc]
    rw [hred, processAudioChunk_fresh s _ h]
    exact ⟨rfl, rfl⟩

/-- C2 witness: the state reached after teardown of `streamingState`. -/
theorem C2_after_teardown_witness :
    (stopRecognitionStream streamingState).1.clientEntry = none ∧
    afterTeardownBehaviour (stopRecognitionStream streamingState).1 :=
  ⟨by decide, C2_after_teardown _ (by decide)⟩

/-! ## Claim C3: registry presence vs connection open -/

/-- C3, counterexample: in the initial state of a connection (socket
open, before any chunk) the connection is open yet absent from the
registry, so "present in the Registry iff the connection is open" fails
in the if direction. -/
theorem C3_registry_iff_open_cex :
    ¬ (((run initState []).1.clientEntry.isSome = true) ↔
        ((run initState []).1.wsOpen = true)) := by
  decide

/-- C3, amended: on every deliverable trace, registry presence implies
the socket is open (the converse can fail); once the socket is closed
there is no registry entry, no alive ffmpeg process and no alive
recognition stream; and handling the `close` event always leaves the
connection in that fully-cleared condition. -/
theorem C3_registry_consistency (t : List Event)
    (h : wfTrace initState t = true) :
    registryConsistencyAt (run initState t).1 := by
  have hI := inv_run t inv_initState h
  refine ⟨hI.entryOpen, ?_, ?_⟩
  · intro hw
    have hE : (run initState t).1.clientEntry = none := by
      cases hEE : (run initState t).1.clientEntry with
      | none => rfl
      | some cd =>
          have := hI.entryOpen (by simp [hEE])
          rw [this] at hw; cases hw
    refine ⟨hE, ?_, ?_⟩
    · have := hI.liveOk
      rw [show storedFfmpeg (run initState t).1 = none by
        simp [storedFfmpeg, hE]] at this
      exact this
    · have := hI.recogOk
      rw [show storedRecog (run initState t).1 = none by
        simp [storedRecog, hE]] at this
      exact this
  · obtain ⟨hc, ho, hl, _, _⟩ :=
      stop_spec { (run initState t).1 with wsOpen := false } hI.recogOk hI.liveOk
    exact ⟨hc, hl, ho⟩

/-- C3 witness: a two-chunk session followed by client disconnect. -/
theorem C3_registry_consistency_witness :
    wfTrace initState [chunkMsg "QUJD", chunkMsg "REVG", Event.wsClose] = true ∧
    registryConsistencyAt
      (run initState [chunkMsg "QUJD", chunkMsg "REVG", Event.wsClose]).1 :=
  ⟨by decide, C3_registry_consistency _ (by decide)⟩

/-! ## Claim C4: transcoding invocation formats -/

/-- C4, counterexample: the one invocation spawned for a chunk is
`ffmpegCommand`, and `ffmpegCommand` forces the input container format to
`3gp` via `.inputFormat("3gp")` rather than accepting whatever container
the client supplies (auto-detection would leave the input format unset). -/
theorem C4_arbitrary_container_cex :
    spawnedInvocations (run initState [chunkMsg "QUJD"]).2 = [ffmpegCommand] ∧
    ffmpegCommand.inputFormat = some "3gp" ∧
    ¬ acceptsArbitraryContainer ffmpegCommand := by
  refine ⟨by decide, rfl, ?_⟩
  intro hc
  simp [acceptsArbitraryContainer, ffmpegCommand] at hc

/-- C4, amended: every ffmpeg task spawned while handling an
`audio_chunk` envelope takes exactly the chunk's payload as input,
declares the input container as `3gp` (not an arbitrary client-chosen
container), and produces output in the fixed format: raw mono 16 kHz
16-bit signed little-endian PCM. -/
theorem C4_chunk_transcode_fixed_formats (s : ConnState) (d : String)
    (hI : Inv s) (hd : jsTruthy (some d) = true) :
    spawnFixedFormat s d := by
  intro fid inp inv hmem
  have hc : (("audio_chunk" : String) == "audio_chunk" && jsTruthy (some d)) = true := by
    simp [hd]
  have hred : handleMessage s (InMsg.parsed { type := "audio_chunk", data := some d }) =
      processAudioChunk s d := by
    simp [handleMessage, hc, hd]
  rw [hred] at hmem
  cases hE : s.clientEntry with
  | none =>
      rw [processAudioChunk_fresh s d hE] at hmem
      simp only [List.mem_cons, List.not_mem_nil, or_false] at hmem
      rcases hmem with h | h | h | h | h | h
      all_goals cases h
      all_goals exact ⟨rfl, rfl, rfl⟩
  | some cd =>
      have hR : ∃ rid, cd.recognizeStream = some rid := by
        have := hI.entryRecog cd hE
        cases hr : cd.recognizeStream with
        | none => rw [hr] at this; cases this
        | some rid => exact ⟨rid, rfl⟩
      obtain ⟨rid, hR⟩ := hR
      cases hF : cd.ffmpegProcess with
      | none =>
          rw [processAudioChunk_noPrior s d cd rid hE hR hF] at hmem
          simp only [List.mem_cons, List.not_mem_nil, or_false] at hmem
          rcases hmem with h | h | h
          all_goals cases h
          all_goals exact ⟨rfl, rfl, rfl⟩
      | some p =>
          rw [processAudioChunk_prior s d cd rid p hE hR hF] at hmem
          simp only [List.mem_cons, List.not_mem_nil, or_false] at hmem
          rcases hmem with h | h | h | h | h
          all_goals cases h
          all_goals exact ⟨rfl, rfl, rfl⟩

/-- C4 witness: a chunk with payload `"QUJD"` in the initial state. -/
theorem C4_chunk_transcode_fixed_formats_witness :
    Inv initState ∧ jsTruthy (some "QUJD") = true ∧
    spawnFixedFormat initState "QUJD" :=
  ⟨inv_initState, rfl,
   C4_chunk_transcode_fixed_formats initState "QUJD" inv_initState rfl⟩

/-! ## Claim C7: idempotent teardown -/

/-- C7: `stopRecognitionStream` is idempotent — calling it a second time
on the already-stopped state changes nothing and emits only a log line
(no error path exists); across both calls the recognition stream is
destroyed exactly once, the ffmpeg process is killed exactly once when
one was stored (zero times otherwise), and the registry entry is removed
by the first call. -/
theorem C7_stop_idempotent (s : ConnState) (cd : ClientData)
    (hE : s.clientEntry = some cd) (hR : cd.recognizeStream.isSome = true) :
    stopTwiceSpec s cd := by
  obtain ⟨r, hr⟩ := Option.isSome_iff_exists.mp hR
  cases hf : cd.ffmpegProcess with
  | none =>
      refine ⟨?_, ?_, ?_, ?_, ?_⟩ <;>
        simp [stopRecognitionStream, hE, hr, hf, countDestroys, countKills, onlyLogs]
  | some p =>
      refine ⟨?_, ?_, ?_, ?_, ?_⟩ <;>
        simp [stopRecognitionStream, hE, hr, hf, countDestroys, countKills, onlyLogs]

/-- C7 witness: the mid-session state with both handles stored. -/
theorem C7_stop_idempotent_witness :
    streamingState.clientEntry =
      some { recognizeStream := some 0, ffmpegProcess := some 1 } ∧
    (ClientData.recognizeStream
      { recognizeStream := some 0, ffmpegProcess := some 1 }).isSome = true ∧
    stopTwiceSpec streamingState { recognizeStream := some 0, ffmpegProcess := some 1 } :=
  ⟨rfl, rfl, C7_stop_idempotent streamingState _ rfl rfl⟩

/-! ## Claim C8: transcript relay preserves emission order -/

/-- C8: while the socket is open and a recognition stream is alive, a
list of recognition `data` events is relayed synchronously, one send per
event carrying a top alternative, with no buffering: the transcript
envelopes sent are exactly the order-preserving projection of the
emitted results, the session state is untouched, and the whole event list
is deliverable. -/
theorem C8_transcript_order (s : ConnState) (l : List (Bool × String × Bool))
    (hws : s.wsOpen = true) (hrec : s.openRecog ≠ []) :
    orderPreservingRelay s l := by
  induction l with
  | nil => exact ⟨rfl, rfl, rfl⟩
  | cons x xs ih =>
      obtain ⟨ih1, ih2, ih3⟩ := ih
      have hstep : step s (Event.recogData x.1 x.2.1 x.2.2) =
          (s, if x.1 then [Action.send (OutMsg.transcriptMsg x.2.1 x.2.2)] else []) := by
        cases hA : x.1 <;> simp [step, handleRecogData, hA, hws]
      have hcons : recogEvents (x :: xs) =
          Event.recogData x.1 x.2.1 x.2.2 :: recogEvents xs := rfl
      refine ⟨?_, ?_, ?_⟩
      · rw [hcons]
        show sentTranscripts ((step s (Event.recogData x.1 x.2.1 x.2.2)).2 ++
          (run (step s (Event.recogData x.1 x.2.1 x.2.2)).1 (recogEvents xs)).2) = _
        rw [hstep]
        cases hA : x.1 <;>
          simp [sentTranscripts, List.filterMap_append, hA] <;>
          simpa [sentTranscripts] using ih1
      · rw [hcons]
        show (run (step s (Event.recogData x.1 x.2.1 x.2.2)).1 (recogEvents xs)).1 = s
        rw [hstep]
        exact ih2
      · rw [hcons]
        show (wfEvent s (Event.recogData x.1 x.2.1 x.2.2) &&
          wfTrace (step s (Event.recogData x.1 x.2.1 x.2.2)).1 (recogEvents xs)) = true
        rw [hstep]
        have : wfEvent s (Event.recogData x.1 x.2.1 x.2.2) = true := by
          simp [wfEvent, List.isEmpty_iff, hrec]
        simp [this, ih3]

/-- C8 witness: the spec scenario — results `("hel", interim)` then
`("hello world", final)` are relayed in that order. -/
theorem C8_transcript_order_witness :
    (run initState [chunkMsg "QUJD"]).1.wsOpen = true ∧
    (run initState [chunkMsg "QUJD"]).1.openRecog ≠ [] ∧
    orderPreservingRelay (run initState [chunkMsg "QUJD"]).1
      [(true, "hel", false), (true, "hello world", true)] :=
  ⟨by decide, by decide,
   C8_transcript_order _ _ (by decide) (by decide)⟩

/-! ## Shared lemmas for claims C5 and C6 -/

theorem entry_cases {s : ConnState} (hI : Inv s) :
    s.clientEntry = none ∨
    ∃ cd rid, s.clientEntry = some cd ∧ cd.recognizeStream = some rid := by
  cases hE : s.clientEntry with
  | none => exact Or.inl rfl
  | some cd =>
      have := hI.entryRecog cd hE
      cases hr : cd.recognizeStream with
      | none => rw [hr] at this; cases this
      | some rid => exact Or.inr ⟨cd, rid, rfl, hr⟩

theorem handleMessage_notChunk (s : ConnState) (pm : ParsedMessage)
    (hc : (pm.type == "audio_chunk" && jsTruthy pm.data) = false) :
    (handleMessage s (InMsg.parsed pm)).1 = s ∧
    onlyLogs (handleMessage s (InMsg.parsed pm)).2 = true := by
  by_cases he : (pm.type == "end_audio") = true
  · simp [handleMessage, hc, he, onlyLogs]
  · simp [handleMessage, hc, Bool.eq_false_iff.mpr he, onlyLogs, unknownTypeLog]

theorem onlyLogs_counts {l : List Action} (h : onlyLogs l = true) :
    countOpens l = 0 ∧ countDestroys l = 0 ∧ pipesKeepOpen l = true := by
  induction l with
  | nil => exact ⟨rfl, rfl, rfl⟩
  | cons a l ih =>
      rw [onlyLogs, List.all_cons, Bool.and_eq_true] at h
      obtain ⟨ha, hl⟩ := h
      obtain ⟨h1, h2, h3⟩ := ih hl
      cases a <;>
        simp_all [countOpens, countDestroys, pipesKeepOpen, onlyLogs,
          List.countP_cons]

theorem chunk_effects {s : ConnState} (hI : Inv s) (d : String) :
    countDestroys (processAudioChunk s d).2 = 0 ∧
    pipesKeepOpen (processAudioChunk s d).2 = true ∧
    (s.clientEntry = none → countOpens (processAudioChunk s d).2 = 1) ∧
    (s.clientEntry.isSome = true →
      countOpens (processAudioChunk s d).2 = 0 ∧
      storedRecog (processAudioChunk s d).1 = storedRecog s) := by
  rcases entry_cases hI with hE | ⟨cd, rid, hE, hR⟩
  · rw [processAudioChunk_fresh s d hE]
    refine ⟨rfl, rfl, fun _ => rfl, fun hs => ?_⟩
    rw [hE] at hs; cases hs
  · cases hF : cd.ffmpegProcess with
    | none =>
        rw [processAudioChunk_noPrior s d cd rid hE hR hF]
        refine ⟨rfl, rfl, fun hn => ?_, fun _ => ⟨rfl, ?_⟩⟩
        · rw [hE] at hn; cases hn
        · simp [storedRecog, hE, hR]
    | some p =>
        rw [processAudioChunk_prior s d cd rid p hE hR hF]
        refine ⟨rfl, rfl, fun hn => ?_, fun _ => ⟨rfl, ?_⟩⟩
        · rw [hE] at hn; cases hn
        · simp [storedRecog, hE, hR]

theorem singleTranscoder_of_inv {s : ConnState} (hI : Inv s) :
    singleTranscoderAt s := by
  constructor
  · have := hI.liveOk
    cases hf : storedFfmpeg s with
    | none => rw [hf] at this; simp [this]
    | some p => rw [hf] at this; rcases this with h1 | h1 <;> simp [h1]
  · intro d hd p hp
    have hE : ∃ cd, s.clientEntry = some cd ∧ cd.ffmpegProcess = some p := by
      cases hEE : s.clientEntry with
      | none =>
          rw [show storedFfmpeg s = none by simp [storedFfmpeg, hEE]] at hp
          cases hp
      | some cd =>
          refine ⟨cd, rfl, ?_⟩
          rw [show storedFfmpeg s = cd.ffmpegProcess by
            simp [storedFfmpeg, hEE]] at hp
          exact hp
    obtain ⟨cd, hE, hF⟩ := hE
    have hR : ∃ rid, cd.recognizeStream = some rid := by
      have := hI.entryRecog cd hE
      cases hr : cd.recognizeStream with
      | none => rw [hr] at this; cases this
      | some rid => exact ⟨rid, rfl⟩
    obtain ⟨rid, hR⟩ := hR
    have hct : (("audio_chunk" : String) == "audio_chunk" &&
        jsTruthy (some d)) = true := by
      simp [jsTruthy, hd]
    have hred : (step s (chunkMsg d)).2 = (processAudioChunk s d).2 := by
      show (handleMessage s
        (InMsg.parsed { type := "audio_chunk", data := some d })).2 = _
      simp [handleMessage, hct, jsTruthy, hd]
    rw [hred, processAudioChunk_prior s d cd rid p hE hR hF]
    exact ⟨[Action.log "Received audio chunk. Converting...",
            Action.log "Killing previous ffmpeg process for new chunk."],
           [], [Action.pipe s.nextId rid false], rfl⟩

theorem recogLifecycle_of_inv {s : ConnState} (hI : Inv s) :
    recogLifecycleAt s := by
  refine ⟨?_, ?_, ?_, ?_⟩
  · rcases entry_cases hI with hE | ⟨cd, rid, hE, hR⟩
    · have hO : s.openRecog = [] := by
        have := hI.recogOk
        rw [show storedRecog s = none by simp [storedRecog, hE]] at this
        exact this
      simp [isStreaming, hE, hO]
    · have hO : s.openRecog = [rid] := by
        have := hI.recogOk
        rw [show storedRecog s = some rid by simp [storedRecog, hE, hR]] at this
        exact this
      simp [isStreaming, hE, hO]
  · intro m hstream
    cases m with
    | invalid => exact ⟨rfl, rfl⟩
    | parsed pm =>
        by_cases hc : (pm.type == "audio_chunk" && jsTruthy pm.data) = true
        · have hred : handleMessage s (InMsg.parsed pm) =
              processAudioChunk s (pm.data.getD "") := by
            simp [handleMessage, hc]
          rw [hred]
          exact (chunk_effects hI _).2.2.2 hstream
        · obtain ⟨h1, h2⟩ :=
            handleMessage_notChunk s pm (Bool.eq_false_iff.mpr hc)
          obtain ⟨ho, _, _⟩ := onlyLogs_counts h2
          exact ⟨ho, by rw [h1]⟩
  · intro m
    cases m with
    | invalid => exact ⟨rfl, rfl⟩
    | parsed pm =>
        by_cases hc : (pm.type == "audio_chunk" && jsTruthy pm.data) = true
        · have hred : handleMessage s (InMsg.parsed pm) =
              processAudioChunk s (pm.data.getD "") := by
            simp [handleMessage, hc]
          rw [hred]
          exact ⟨(chunk_effects hI _).1, (chunk_effects hI _).2.1⟩
        · obtain ⟨h1, h2⟩ :=
            handleMessage_notChunk s pm (Bool.eq_false_iff.mpr hc)
          obtain ⟨_, hd, hpp⟩ := onlyLogs_counts h2
          exact ⟨hd, hpp⟩
  · intro hns d hd
    have hE : s.clientEntry = none := by
      cases hEE : s.clientEntry with
      | none => rfl
      | some cd => rw [isStreaming, hEE] at hns; cases hns
    have hct : (("audio_chunk" : String) == "audio_chunk" &&
        jsTruthy (some d)) = true := by
      simp [jsTruthy, hd]
    have hred : handleMessage s
        (InMsg.parsed { type := "audio_chunk", data := some d }) =
        processAudioChunk s d := by
      simp [handleMessage, hct, jsTruthy, hd]
    rw [hred]
    exact (chunk_effects hI d).2.2.1 hE

/-! ## Claim C5: at most one live transcoder, kill before spawn -/

/-- C5: on every deliverable trace, at most one ffmpeg process is alive
for the connection at any instant, and when a chunk arrives while a prior
transcoder handle is stored, the handler's action sequence issues the
SIGKILL of the prior process strictly before spawning the new one. -/
theorem C5_single_transcoder (t : List Event)
    (h : wfTrace initState t = true) :
    singleTranscoderAt (run initState t).1 :=
  singleTranscoder_of_inv (inv_run t inv_initState h)

/-- C5 witness: the state after one chunk, where ffmpeg process `1` is
stored and a second chunk must kill it before spawning process `2`. -/
theorem C5_single_transcoder_witness :
    wfTrace initState [chunkMsg "QUJD"] = true ∧
    singleTranscoderAt (run initState [chunkMsg "QUJD"]).1 :=
  ⟨by decide, C5_single_transcoder _ (by decide)⟩

/-! ## Claim C6: recognition-handle lifecycle -/

/-- C6: on every deliverable trace, a recognition stream is alive iff the
session is `Streaming`; while one is open no inbound message opens
another or replaces the stored one; no inbound message ever destroys it
and every pipe of transcoder output into it uses `end: false`; and from a
non-`Streaming` state an audio chunk opens exactly one stream (the
`Idle` to `Streaming` transition). -/
theorem C6_recognition_lifecycle (t : List Event)
    (h : wfTrace initState t = true) :
    recogLifecycleAt (run initState t).1 :=
  recogLifecycle_of_inv (inv_run t inv_initState h)

/-- C6 witness: the streaming state reached by one chunk. -/
theorem C6_recognition_lifecycle_witness :
    wfTrace initState [chunkMsg "QUJD"] = true ∧
    recogLifecycleAt (run initState [chunkMsg "QUJD"]).1 :=
  ⟨by decide, C6_recognition_lifecycle _ (by decide)⟩

end Lifeasee
